import Mathlib

/-!
Verification development for the cognitive agent loop of the AI-society
backend (`backend/app/agents/{memory,reflection,reaction,planning,decision}.py`
and `backend/app/core/locations.py`).

The Python code is shallowly embedded:
* wall-clock / in-game `datetime` values are modelled as natural numbers
  (hours); one operation reads a single `now`, the standard idealisation of
  the several `datetime.now()` calls made inside it;
* the float `2.71828 ** (-age_hours / 24)` inside `Memory.get_recency_score`
  is a transcendental floating-point computation; it is modelled by an
  arbitrary function `rec : ℕ → ℚ` of the age, over which all theorems
  quantify (the clamp `max(0.01, min(1.0, _))` from the source is kept
  explicit); at age 0 the source computes exactly 1.0, matched by
  instantiating `rec` with `fun _ => 1` in concrete witnesses;
* Python dicts keep insertion order, so `_memories` is an insertion-ordered
  list (with the dict replace-on-same-key semantics);
* Python `sorted` and `list.sort` are stable; they are modelled by a stable
  insertion sort (`stableSort`), which agrees with every stable sort;
* `uuid4` ids are modelled as caller-supplied fresh-id arguments;
* each call to the LLM router is modelled by an oracle argument:
  `none` stands for a raised exception, `some none` for a response whose
  JSON extraction fails, `some (some v)` for a successfully parsed value.
-/

namespace AISociety

/-! ### String helpers

Core `String.replace/split/trim/toLower` are irreducible in the kernel, so
the handful of Python `str` operations the embedded code uses are
re-implemented structurally on `List Char`, with the same semantics as the
Python methods on the points where the code calls them. -/

/-- Python `s.replace(old, new)` for a one-character `old`/`new`
(the code only ever replaces the single characters `，` and `。` by a
space). -/
def replaceChar (old new : Char) (s : String) : String :=
  ⟨s.data.map (fun c => if c = old then new else c)⟩

/-- Helper for `splitWhitespace`: walk the characters, `cur` is the
reversed current token. -/
def splitWsAux : List Char → List Char → List (List Char)
  | [], cur => if cur.isEmpty then [] else [cur.reverse]
  | c :: rest, cur =>
    if c.isWhitespace then
      if cur.isEmpty then splitWsAux rest [] else cur.reverse :: splitWsAux rest []
    else
      splitWsAux rest (c :: cur)

/-- Python `s.split()` with no argument: split on whitespace runs, no empty
tokens. -/
def splitWhitespace (s : String) : List String :=
  (splitWsAux s.data []).map (fun cs => ⟨cs⟩)

/-- Helper for `splitOnNl`. -/
def splitNlAux : List Char → List Char → List (List Char)
  | [], cur => [cur.reverse]
  | c :: rest, cur =>
    if c = '\n' then cur.reverse :: splitNlAux rest [] else splitNlAux rest (c :: cur)

/-- Python `s.split("\n")`: empty pieces are kept. -/
def splitOnNl (s : String) : List String :=
  (splitNlAux s.data []).map (fun cs => ⟨cs⟩)

/-- Python `s.strip()`: drop leading and trailing whitespace. -/
def pyStrip (s : String) : String :=
  ⟨((s.data.dropWhile Char.isWhitespace).reverse.dropWhile Char.isWhitespace).reverse⟩

/-- Python `s.lower()` (ASCII is all the code compares). -/
def pyLower (s : String) : String :=
  ⟨s.data.map Char.toLower⟩

/-- Helper for `containsSub`: does `pat` occur in `hay` as a contiguous
sublist? -/
def containsSubList (hay pat : List Char) : Bool :=
  match hay with
  | [] => pat.isEmpty
  | _ :: t => pat.isPrefixOf hay || containsSubList t pat

/-- Python `pat in s` substring test. -/
def containsSub (s pat : String) : Bool :=
  containsSubList s.data pat.data

/-- Python truthiness of an `Optional[str]`: `None` and `""` are falsy. -/
def optStrTruthy : Option String → Bool
  | none => false
  | some s => !(s = "")

/-! ### Stable sort

Python `sorted` and `list.sort` are stable; a stable insertion sort has
the same output as any stable sort, so it is a faithful model. -/

/-- Insert `x` after every already-placed element `y` with `le y x`, so that
elements comparing equal keep their original relative order. -/
def insertSorted {α : Type} (le : α → α → Bool) (x : α) : List α → List α
  | [] => [x]
  | y :: ys => if le y x then y :: insertSorted le x ys else x :: y :: ys

/-- Stable sort by repeated insertion, processing the list left to right. -/
def stableSort {α : Type} (le : α → α → Bool) (l : List α) : List α :=
  l.foldl (fun acc x => insertSorted le x acc) []

/-! ### Memory data model (`backend/app/agents/memory.py`) -/

/-- The `MemoryType` enum (memory.py 77-84). -/
inductive MemoryType
  | event
  | conversation
  | observation
  | emotion
  | social
  | reflection
deriving DecidableEq, Repr

/-- The `Memory` dataclass (memory.py 87-122).  `timestamp` is the in-game
time, `createdAt` the wall-clock creation time, both in model hours. -/
structure Memory where
  id : String
  mtype : MemoryType
  content : String
  importance : ℚ
  timestamp : ℕ
  createdAt : ℕ
  relatedAgents : List String
  location : Option String
  emotion : Option String
  keywords : Finset String
  accessCount : ℕ
  lastAccessed : Option ℕ
deriving DecidableEq

/-- The `Memory._extract_keywords` (memory.py 133-137): replace `，` and `。` by
spaces, split on whitespace, keep tokens of length ≥ 2.  Also the inline
query tokenisation in `retrieve_relevant` (memory.py 456-457), which is the
same computation. -/
def extractKeywords (content : String) : Finset String :=
  ((splitWhitespace (replaceChar '。' ' ' (replaceChar '，' ' ' content))).filter
    (fun w => 2 ≤ w.length)).toFinset

/-- The `Memory(...)` construction followed by `__post_init__` (memory.py
107-131): `timestamp` defaults to now, keywords are auto-extracted from the
content when not supplied.  The `uuid4` id is the caller-supplied
`id` argument. -/
def mkMemory (id : String) (mtype : MemoryType) (content : String)
    (importance : ℚ) (relatedAgents : List String) (location : Option String)
    (emotion : Option String) (timestamp : Option ℕ) (now : ℕ) : Memory :=
  { id := id
    mtype := mtype
    content := content
    importance := importance
    timestamp := timestamp.getD now
    createdAt := now
    relatedAgents := relatedAgents
    location := location
    emotion := emotion
    keywords := extractKeywords content
    accessCount := 0
    lastAccessed := none }

/-- The `Memory.access` (memory.py 139-142). -/
def Memory.access (m : Memory) (now : ℕ) : Memory :=
  { m with accessCount := m.accessCount + 1, lastAccessed := some now }

/-- The `Memory.get_recency_score` (memory.py 144-154):
`max(0.01, min(1.0, 2.71828 ** (-age_hours / 24)))`.  The raw float power
is the argument `rec` applied to the age in hours; the clamp is kept. -/
def Memory.getRecencyScore (rec : ℕ → ℚ) (now : ℕ) (m : Memory) : ℚ :=
  max (1/100) (min 1 (rec (now - m.createdAt)))

/-- The `Memory.get_relevance_score` (memory.py 156-172): Jaccard similarity of
the keyword sets, 0 when either set is empty. -/
def Memory.getRelevanceScore (m : Memory) (queryKeywords : Finset String) : ℚ :=
  if queryKeywords = ∅ ∨ m.keywords = ∅ then 0
  else
    let i := (m.keywords ∩ queryKeywords).card
    let u := (m.keywords ∪ queryKeywords).card
    if 0 < u then (i : ℚ) / (u : ℚ) else 0

/-- The `Memory.get_retrieval_score` (memory.py 174-206) at the default weights
0.4 / 0.3 / 0.3 (every call site uses the defaults).  `queryKeywords` is
`Optional`: the Python test `if query_keywords:` treats both `None` and the empty
set as absent, defaulting relevance to 0.5. -/
def Memory.getRetrievalScore (rec : ℕ → ℚ) (now : ℕ) (m : Memory)
    (queryKeywords : Option (Finset String)) : ℚ :=
  let importanceScore := m.importance / 10
  let recencyScore := m.getRecencyScore rec now
  let relevanceScore :=
    match queryKeywords with
    | some qk => if qk = ∅ then 1/2 else m.getRelevanceScore qk
    | none => 1/2
  importanceScore * (4/10) + recencyScore * (3/10) + relevanceScore * (3/10)

/-! ### MemoryManager (`memory.py` 239-566) -/

/-- The `MemoryManager` state (memory.py 253-277).  `_memories` is the
insertion-ordered dict `id -> Memory`, kept as a list of its values;
`byType` / `byAgent` are the two secondary indices (`_by_type` initialised
with all six keys, `_by_agent` grown lazily). -/
structure MemoryManager where
  maxMemories : ℕ
  shortTermLimit : ℕ
  importanceThreshold : ℚ
  memories : List Memory
  byType : List (MemoryType × List String)
  byAgent : List (String × List String)
  accumulatedImportance : ℚ
  lastReflectionTime : Option ℕ
deriving DecidableEq

/-- The `MemoryManager.__init__` (memory.py 253-277). -/
def mkMemoryManager (maxMemories shortTermLimit : ℕ)
    (importanceThreshold : ℚ) : MemoryManager :=
  { maxMemories := maxMemories
    shortTermLimit := shortTermLimit
    importanceThreshold := importanceThreshold
    memories := []
    byType := [(.event, []), (.conversation, []), (.observation, []),
               (.emotion, []), (.social, []), (.reflection, [])]
    byAgent := []
    accumulatedImportance := 0
    lastReflectionTime := none }

/-- Append `v` to the list stored under `k` in the `_by_type` index. -/
def byTypeAppend (idx : List (MemoryType × List String)) (k : MemoryType)
    (v : String) : List (MemoryType × List String) :=
  idx.map (fun p => if p.1 = k then (p.1, p.2 ++ [v]) else p)

/-- Remove `v` from the list stored under `k` in the `_by_type` index
(Python `list.remove` guarded by membership = erase first occurrence). -/
def byTypeErase (idx : List (MemoryType × List String)) (k : MemoryType)
    (v : String) : List (MemoryType × List String) :=
  idx.map (fun p => if p.1 = k then (p.1, p.2.erase v) else p)

/-- The `_by_agent[agent_id].append(mid)`, creating the key if absent
(memory.py 297-300). -/
def byAgentAppend (idx : List (String × List String)) (k : String)
    (v : String) : List (String × List String) :=
  if idx.any (fun p => p.1 = k) then
    idx.map (fun p => if p.1 = k then (p.1, p.2 ++ [v]) else p)
  else
    idx ++ [(k, [v])]

/-- Guarded `_by_agent[agent_id].remove(mid)` (memory.py 367-369). -/
def byAgentErase (idx : List (String × List String)) (k : String)
    (v : String) : List (String × List String) :=
  idx.map (fun p => if p.1 = k then (p.1, p.2.erase v) else p)

/-- Dict insertion `self._memories[memory.id] = memory`: replace in place
when the id is present, else append. -/
def dictInsert (l : List Memory) (m : Memory) : List Memory :=
  if l.any (fun x => x.id = m.id) then
    l.map (fun x => if x.id = m.id then m else x)
  else
    l ++ [m]

/-- The `MemoryManager.remove` (memory.py 356-372): no-op returning `False`
when the id is absent; otherwise drop the memory from both indices and
from the store.  `accumulated_importance` is untouched. -/
def MemoryManager.remove (g : MemoryManager) (memoryId : String) :
    MemoryManager × Bool :=
  match g.memories.find? (fun m => m.id = memoryId) with
  | none => (g, false)
  | some mem =>
    ({ g with
        memories := g.memories.eraseP (fun m => m.id = memoryId)
        byType := byTypeErase g.byType mem.mtype memoryId
        byAgent := mem.relatedAgents.foldl
          (fun idx a => byAgentErase idx a memoryId) g.byAgent },
      true)

/-- The `MemoryManager._forget_least_important` (memory.py 374-389): sort all
memories by no-query retrieval score ascending (stable), remove the lowest
`max(1, n // 10)`. -/
def MemoryManager.forgetLeastImportant (rec : ℕ → ℚ) (now : ℕ)
    (g : MemoryManager) : MemoryManager :=
  if g.memories.isEmpty then g
  else
    let sortedMemories := stableSort
      (fun a b => decide (Memory.getRetrievalScore rec now a none ≤
                          Memory.getRetrievalScore rec now b none))
      g.memories
    let toRemove := max 1 (g.memories.length / 10)
    (sortedMemories.take toRemove).foldl
      (fun h mem => (h.remove mem.id).1) g

/-- The `MemoryManager.add` (memory.py 279-307): evict first when the store is
already at capacity, then insert, update both indices, and accumulate the
importance. -/
def MemoryManager.add (rec : ℕ → ℚ) (now : ℕ) (g : MemoryManager)
    (m : Memory) : MemoryManager × String :=
  let g' := if g.maxMemories ≤ g.memories.length
            then g.forgetLeastImportant rec now else g
  ({ g' with
      memories := dictInsert g'.memories m
      byType := byTypeAppend g'.byType m.mtype m.id
      byAgent := m.relatedAgents.foldl
        (fun idx a => byAgentAppend idx a m.id) g'.byAgent
      accumulatedImportance := g'.accumulatedImportance + m.importance },
    m.id)

/-- The `MemoryManager.reset_accumulated_importance` (memory.py 309-319). -/
def MemoryManager.resetAccumulatedImportance (g : MemoryManager) (now : ℕ) :
    MemoryManager × ℚ :=
  ({ g with accumulatedImportance := 0, lastReflectionTime := some now },
    g.accumulatedImportance)

/-- The `MemoryManager.create_and_add` (memory.py 321-347): build a `Memory`
(fresh uuid modelled by `freshId`) and `add` it. -/
def MemoryManager.createAndAdd (rec : ℕ → ℚ) (now : ℕ) (g : MemoryManager)
    (freshId content : String) (mtype : MemoryType) (importance : ℚ)
    (relatedAgents : List String) (location : Option String)
    (emotion : Option String) (gameTime : Option ℕ) :
    MemoryManager × Memory :=
  let m := mkMemory freshId mtype content importance relatedAgents location
    emotion gameTime now
  ((g.add rec now m).1, m)

/-- The `MemoryManager.count` (memory.py 516-518). -/
def MemoryManager.count (g : MemoryManager) : ℕ :=
  g.memories.length

/-- The `MemoryManager.clear` (memory.py 540-545): drops every memory, resets
both indices and sets `accumulated_importance` to 0. -/
def MemoryManager.clear (g : MemoryManager) : MemoryManager :=
  { g with
      memories := []
      byType := [(.event, []), (.conversation, []), (.observation, []),
                 (.emotion, []), (.social, []), (.reflection, [])]
      byAgent := []
      accumulatedImportance := 0 }

/-- The `MemoryManager.retrieve_recent` (memory.py 395-410): stable sort by
`created_at` descending, first `limit`. -/
def MemoryManager.retrieveRecent (g : MemoryManager) (limit : ℕ) :
    List Memory :=
  (stableSort (fun a b => decide (b.createdAt ≤ a.createdAt)) g.memories).take
    limit

/-- The `MemoryManager.retrieve_relevant` (memory.py 438-470): tokenise the
query, collect `(memory, score)` for every memory whose score reaches
`min_score` — calling `memory.access()` on each of those as a side
effect — then stable-sort by score descending and return the first
`limit`. -/
def MemoryManager.retrieveRelevant (rec : ℕ → ℚ) (now : ℕ)
    (g : MemoryManager) (query : String) (limit : ℕ) (minScore : ℚ) :
    MemoryManager × List (Memory × ℚ) :=
  let queryKeywords := extractKeywords query
  let score := fun m => Memory.getRetrievalScore rec now m (some queryKeywords)
  let newMemories := g.memories.map
    (fun m => if minScore ≤ score m then m.access now else m)
  let scoredMemories := (g.memories.filter (fun m => minScore ≤ score m)).map
    (fun m => (m.access now, score m))
  let sorted := stableSort (fun a b => decide (b.2 ≤ a.2)) scoredMemories
  ({ g with memories := newMemories }, sorted.take limit)

/-! ### Reflection engine (`backend/app/agents/reflection.py`) -/

/-- The `ReflectionResult` dataclass (reflection.py 25-30). -/
structure ReflectionResult where
  questions : List String
  insights : List String
  memoriesCreated : ℕ
deriving DecidableEq, Repr

/-- The LLM interactions of one reflection-engine run:
`questionsResponse` is the outcome of the question-generation call (`none`
= raised), `insightResponse q` the outcome of the insight call for
question `q`, and `freshIds` the uuid supply for the created reflection
memories. -/
structure ReflectionOracle where
  questionsResponse : Option String
  insightResponse : String → Option String
  freshIds : ℕ → String

/-- The `ReflectionEngine.generate_questions` (reflection.py 66-121): empty
store aborts before the LLM call; a raised call yields `[]`; otherwise keep
the stripped lines that are nonempty and contain a question mark, at most
`num_questions = 3` of them. -/
def generateQuestions (oracle : ReflectionOracle) (g : MemoryManager) :
    List String :=
  let recentMemories := g.retrieveRecent 100
  if recentMemories.isEmpty then []
  else
    match oracle.questionsResponse with
    | none => []
    | some resp =>
      (((splitOnNl (pyStrip resp)).filter
          (fun line => !(pyStrip line = "") && line.data.contains '?')).map
        pyStrip).take 3

/-- The `ReflectionEngine.generate_insight` (reflection.py 123-173): retrieve
up to 10 relevant memories (a mutating call, at the default
`min_score = 0.1`); abort with `none` when nothing is relevant or the LLM
call raises, else return the stripped insight. -/
def generateInsight (rec : ℕ → ℚ) (now : ℕ) (oracle : ReflectionOracle)
    (g : MemoryManager) (question : String) : MemoryManager × Option String :=
  let (g', relevantResults) := g.retrieveRelevant rec now question 10 (1/10)
  if relevantResults.isEmpty then (g', none)
  else
    match oracle.insightResponse question with
    | none => (g', none)
    | some resp => (g', some (pyStrip resp))

/-- The `ReflectionEngine.run_reflection` (reflection.py 175-224): generate
questions (abort with an empty result, leaving the store untouched, when
none); per question, generate an insight and persist it as a
reflection-kind memory of importance 8; finally reset
`accumulated_importance`. -/
def runReflection (rec : ℕ → ℚ) (now : ℕ) (oracle : ReflectionOracle)
    (g : MemoryManager) : MemoryManager × ReflectionResult :=
  let questions := generateQuestions oracle g
  if questions.isEmpty then (g, ⟨[], [], 0⟩)
  else
    let step := fun (acc : MemoryManager × List String × ℕ × ℕ) (q : String) =>
      match generateInsight rec now oracle acc.1 q with
      | (g', none) => (g', acc.2.1, acc.2.2.1, acc.2.2.2)
      | (g', some insight) =>
        ((g'.createAndAdd rec now (oracle.freshIds acc.2.2.2) insight
            .reflection 8 [] none none none).1,
          acc.2.1 ++ [insight], acc.2.2.1 + 1, acc.2.2.2 + 1)
    let folded := questions.foldl step (g, [], 0, 0)
    ((folded.1.resetAccumulatedImportance now).1,
      ⟨questions, folded.2.1, folded.2.2.1⟩)

/-- The `ReflectionEngine.should_reflect` (reflection.py 53-64) at the default
threshold 150. -/
def shouldReflect (g : MemoryManager) : Bool :=
  decide ((150 : ℚ) ≤ g.accumulatedImportance)

/-! ### Planning system (`backend/app/agents/planning.py`) -/

/-- The `PlanBlock` dataclass (planning.py 26-41); the `"HH:MM"` strings are
kept as strings, exactly as the source compares them. -/
structure PlanBlock where
  startTime : String
  endTime : String
  activity : String
  location : String
deriving DecidableEq, Repr

/-- The `DailyPlan` dataclass (planning.py 81-88); dates and creation times are
model naturals. -/
structure DailyPlan where
  planDate : ℕ
  broadStrokes : List PlanBlock
  hourlyChunks : List PlanBlock
  currentTasks : List PlanBlock
  createdAt : ℕ
deriving DecidableEq, Repr

/-- Two-digit decimal rendering, as `strftime` does for `%H` / `%M`. -/
def pad2 (n : ℕ) : String :=
  if n < 10 then "0" ++ toString n else toString n

/-- The `current_time.strftime("%H:%M")`. -/
def fmtHM (h m : ℕ) : String :=
  pad2 h ++ ":" ++ pad2 m

/-- The half-open interval test `block.start_time <= time_str <
block.end_time` used by `get_current_block` (Python string comparison =
lexicographic on code points). -/
def blockContains (b : PlanBlock) (timeStr : String) : Bool :=
  decide (b.startTime ≤ timeStr) && decide (timeStr < b.endTime)

/-- The `DailyPlan.get_current_block` (planning.py 90-113): scan
`current_tasks`, then `hourly_chunks`, then `broad_strokes`, returning the
first block containing the formatted time. -/
def DailyPlan.getCurrentBlock (plan : DailyPlan) (h m : ℕ) :
    Option PlanBlock :=
  let timeStr := fmtHM h m
  match plan.currentTasks.find? (fun b => blockContains b timeStr) with
  | some task => some task
  | none =>
    match plan.hourlyChunks.find? (fun b => blockContains b timeStr) with
    | some chunk => some chunk
    | none => plan.broadStrokes.find? (fun b => blockContains b timeStr)

/-- The `DailyPlan.get_remaining_plan` (planning.py 129-138): broad strokes
whose end time is after the formatted current time. -/
def DailyPlan.getRemainingPlan (plan : DailyPlan) (h m : ℕ) :
    List PlanBlock :=
  plan.broadStrokes.filter (fun b => decide (fmtHM h m < b.endTime))

/-- One plan-block entry of a parsed LLM JSON object; each field may be
missing (`dict.get` with a default). -/
structure BlockJson where
  startJ : Option String
  endJ : Option String
  activityJ : Option String
  locationJ : Option String
deriving DecidableEq, Repr

/-- The `PlanBlock` built from one JSON item with the defaults used by
`replan_from_now` (planning.py 458-463). -/
def blockFromJson (j : BlockJson) : PlanBlock :=
  { startTime := j.startJ.getD "00:00"
    endTime := j.endJ.getD "00:00"
    activity := j.activityJ.getD ""
    location := j.locationJ.getD "" }

/-! ### Agent model (`backend/app/agents/models.py`) -/

/-- The `ActionType` enum (models.py 34-46). -/
inductive ActionType
  | idle
  | move
  | work
  | eat
  | sleep
  | rest
  | chat
  | shop
  | exercise
  | entertainment
  | waiting
deriving DecidableEq, Repr

/-- The `ActionType.value` strings. -/
def ActionType.value : ActionType → String
  | .idle => "idle"
  | .move => "move"
  | .work => "work"
  | .eat => "eat"
  | .sleep => "sleep"
  | .rest => "rest"
  | .chat => "chat"
  | .shop => "shop"
  | .exercise => "exercise"
  | .entertainment => "entertainment"
  | .waiting => "waiting"

/-- The `AgentState` enum (models.py 49-56). -/
inductive AgentState
  | active
  | sleeping
  | busy
  | inConversation
  | paused
  | offline
deriving DecidableEq, Repr

/-- The `Position` dataclass (models.py 59-77). -/
structure Position where
  x : ℚ
  y : ℚ
  locationId : Option String
  locationName : Option String
deriving DecidableEq, Repr

/-- The `CurrentAction` dataclass (models.py 84-108). -/
structure CurrentAction where
  ctype : ActionType
  target : Option String
  targetName : Option String
  startedAt : ℕ
  durationMinutes : ℕ
  progress : ℚ
  thinking : Option String
deriving DecidableEq, Repr

/-- The `Agent` dataclass (models.py 182-249) restricted to the fields the
cognitive loop reads or writes: identity, memory store, balance, position,
behavioural state, current action, daily plan and conversation partner. -/
structure Agent where
  id : String
  name : String
  memory : MemoryManager
  balance : ℚ
  position : Position
  state : AgentState
  currentAction : CurrentAction
  dailyPlan : Option DailyPlan
  conversationPartnerId : Option String
deriving DecidableEq

/-- The `Agent.add_memory` (models.py 311-327): `create_and_add` with the
current location name of the agent attached. -/
def Agent.addMemory (rec : ℕ → ℚ) (now : ℕ) (freshId : String) (a : Agent)
    (content : String) (mtype : MemoryType) (importance : ℚ)
    (relatedAgents : List String) : Agent :=
  { a with memory := (a.memory.createAndAdd rec now freshId content mtype
      importance relatedAgents a.position.locationName none none).1 }

/-- The `Agent.set_action` (models.py 371-396): install a fresh
`CurrentAction` and derive the agent state from the action type. -/
def Agent.setAction (now : ℕ) (a : Agent) (actionType : ActionType)
    (target targetName : Option String) (durationMinutes : ℕ)
    (thinking : Option String) : Agent :=
  { a with
      currentAction :=
        { ctype := actionType
          target := target
          targetName := targetName
          startedAt := now
          durationMinutes := durationMinutes
          progress := 0
          thinking := thinking }
      state :=
        if actionType = .sleep then .sleeping
        else if actionType = .chat then .inConversation
        else if actionType = .work ∨ actionType = .move then .busy
        else .active }

/-- The `Agent.move_to` (models.py 430-435). -/
def Agent.moveTo (a : Agent) (x y : ℚ) (locationId locationName : Option String) :
    Agent :=
  { a with position := ⟨x, y, locationId, locationName⟩ }

/-- The `replan_from_now` (planning.py 408-472): no plan means `[]`; the
remaining-plan text (431-435) only feeds the prompt; a raised LLM call or
a response without an extractable `"new_plan"` JSON list yields `[]`;
otherwise the items are converted with the `"00:00"` defaults. -/
def replanFromNow (oracle : Option (Option (List BlockJson))) (a : Agent)
    (_h _m : ℕ) (_whatHappened : String) : List PlanBlock :=
  match a.dailyPlan with
  | none => []
  | some _ =>
    match oracle with
    | none => []
    | some none => []
    | some (some items) => items.map blockFromJson

/-! ### Perception and reaction (`backend/app/agents/{perception,reaction}.py`) -/

/-- The `Perception` dataclass (perception.py 25-49). -/
structure Perception where
  currentLocation : String
  currentLocationId : Option String
  agentsNearby : List String
  agentsNearbyIds : List String
  newEvents : List String
  beingAddressed : Bool
  addressedBy : Option String
  notableChanges : List String
deriving DecidableEq, Repr

/-- The `Perception.is_empty` (perception.py 91-98). -/
def Perception.isEmpty (p : Perception) : Bool :=
  p.agentsNearby.isEmpty && p.newEvents.isEmpty && !p.beingAddressed &&
    p.notableChanges.isEmpty

/-- The `ReactionType` enum (reaction.py 29-33). -/
inductive ReactionType
  | cont
  | interrupt
  | note
deriving DecidableEq, Repr

/-- The `ReactionDecision` dataclass (reaction.py 36-42). -/
structure ReactionDecision where
  shouldReact : Bool
  reactionType : ReactionType
  reaction : Option String
  reason : String
deriving DecidableEq, Repr

/-- The fields of the JSON object `should_react` extracts from the LLM
response (each may be missing). -/
structure ReactionJson where
  shouldReactJ : Option Bool
  reactionTypeJ : Option String
  reactionJ : Option String
  reasonJ : Option String
deriving DecidableEq, Repr

/-- Python `f"...{x}..."` of an `Optional[str]`: `None` prints as
`"None"`. -/
def pyOptStr : Option String → String
  | none => "None"
  | some s => s

/-- The `should_react` (reaction.py 74-182).  The two deterministic
short-circuits come first; only the final branch consults the inference
service, so the returned flag records whether the LLM was called.  The
prompt assembly (reaction.py 110-134) feeds the call only and is not
modelled; the call-plus-JSON-extraction outcome is the oracle (`none` =
raised, `some none` = no JSON extractable, both falling back to the default
Continue decision of lines 177-182). -/
def shouldReactFn (oracle : Option (Option ReactionJson)) (p : Perception) :
    ReactionDecision × Bool :=
  if p.isEmpty then
    (⟨false, .cont, none, "没有需要反应的事情"⟩, false)
  else if p.beingAddressed then
    (⟨true, .interrupt, some ("回应" ++ pyOptStr p.addressedBy),
      pyOptStr p.addressedBy ++ "在等待回应"⟩, false)
  else
    match oracle with
    | some (some j) =>
      let rts := pyLower (j.reactionTypeJ.getD "continue")
      let rt :=
        if rts = "interrupt" then ReactionType.interrupt
        else if rts = "note" then ReactionType.note
        else ReactionType.cont
      (⟨j.shouldReactJ.getD false, rt, j.reactionJ, j.reasonJ.getD ""⟩, true)
    | some none => (⟨false, .cont, none, "决策过程出错，默认继续"⟩, true)
    | none => (⟨false, .cont, none, "决策过程出错，默认继续"⟩, true)

/-- The `execute_reaction` (reaction.py 185-249).  `fid1`/`fid2` supply the
uuids of the written memories; `replanOracle` and `nowH`/`nowM` drive the
`replan_from_now` call of the Interrupt branch.  Note: the Python test
`if agent.current_action:` is always truthy (a dataclass instance), so the
interruption memory is written unconditionally. -/
def executeReaction (rec : ℕ → ℚ) (now : ℕ) (fid1 fid2 : String)
    (replanOracle : Option (Option (List BlockJson))) (nowH nowM : ℕ)
    (a : Agent) (d : ReactionDecision) : Agent × Bool :=
  if !d.shouldReact then (a, true)
  else if d.reactionType = .note then
    (if optStrTruthy d.reaction then
      a.addMemory rec now fid1 ("注意到：" ++ d.reaction.getD "")
        .observation 4 []
    else a, true)
  else if d.reactionType = .interrupt then
    let a1 := a.addMemory rec now fid1
      ("中断了" ++ a.currentAction.ctype.value ++ "：" ++ d.reason) .event 5 []
    let a2 :=
      if optStrTruthy d.reaction then
        a1.addMemory rec now fid2 ("反应：" ++ d.reaction.getD "") .event 5 []
      else a1
    let a3 :=
      if a2.dailyPlan.isSome && optStrTruthy d.reaction then
        let newBlocks := replanFromNow replanOracle a2 nowH nowM
          (d.reaction.getD "")
        if !newBlocks.isEmpty then
          { a2 with dailyPlan := (a2.dailyPlan.map
              (fun pl => { pl with broadStrokes := newBlocks })) }
        else a2
      else a2
    (a3, true)
  else (a, true)

/-- The reaction-handling step of `DecisionScheduler._process_agent`
(decision.py 516-553), given the already-computed `ReactionDecision`:
Interrupt runs `execute_reaction` and short-circuits the tick for this
agent (the returned flag); Note writes the reaction text — when truthy —
directly as an Event memory of importance 3 and continues; anything else
continues unchanged. -/
def processReactionStep (rec : ℕ → ℚ) (now : ℕ) (fid1 fid2 fid3 : String)
    (replanOracle : Option (Option (List BlockJson))) (nowH nowM : ℕ)
    (a : Agent) (rd : ReactionDecision) : Agent × Bool :=
  if rd.shouldReact then
    if rd.reactionType = .interrupt then
      ((executeReaction rec now fid1 fid2 replanOracle nowH nowM a rd).1, true)
    else if rd.reactionType = .note then
      (if optStrTruthy rd.reaction then
        a.addMemory rec now fid3 (rd.reaction.getD "") .event 3 []
      else a, false)
    else (a, false)
  else (a, false)

/-! ### Locations and movement (`backend/app/core/locations.py`,
`backend/app/agents/manager.py`) -/

/-- The `Location` (locations.py 118-150) restricted to the fields movement
uses; `current_agents` is a Python set, kept as a duplicate-free list. -/
structure Location where
  id : String
  name : String
  x : ℚ
  y : ℚ
  capacity : ℕ
  currentAgents : List String
deriving DecidableEq, Repr

/-- The `Location.is_full` (locations.py 162-165). -/
def Location.isFull (l : Location) : Bool :=
  l.capacity ≤ l.currentAgents.length

/-- The `Location.enter` (locations.py 184-194). -/
def Location.enter (l : Location) (agentId : String) : Location × Bool :=
  if l.isFull then (l, false)
  else
    ({ l with currentAgents :=
        if l.currentAgents.contains agentId then l.currentAgents
        else l.currentAgents ++ [agentId] }, true)

/-- The `Location.leave` (locations.py 196-198): `set.discard`. -/
def Location.leave (l : Location) (agentId : String) : Location :=
  { l with currentAgents := l.currentAgents.erase agentId }

/-- The world directory as movement sees it: the insertion-ordered
`locations` dict of the location manager and the `_by_location`
index of the agent manager (a dict of sets). -/
structure World where
  locations : List Location
  byLocation : List (String × List String)
deriving DecidableEq, Repr

/-- The `LocationManager.get_location` (locations.py 305-307). -/
def getLocation (w : World) (locationId : String) : Option Location :=
  w.locations.find? (fun l => l.id = locationId)

/-- The `LocationManager.get_by_name` (locations.py 313-333): exact match
first, then the symmetric-substring partial match, each in dict
insertion order. -/
def getByName (w : World) (name : String) : Option Location :=
  match w.locations.find? (fun l => l.name = name) with
  | some l => some l
  | none =>
    w.locations.find?
      (fun l => containsSub l.name name || containsSub name l.name)

/-- The `AgentManager._add_to_location` (manager.py 364-368): set insertion
under the location key. -/
def addToByLocation (idx : List (String × List String))
    (agentId locationId : String) : List (String × List String) :=
  if idx.any (fun p => p.1 = locationId) then
    idx.map (fun p =>
      if p.1 = locationId then
        (p.1, if p.2.contains agentId then p.2 else p.2 ++ [agentId])
      else p)
  else idx ++ [(locationId, [agentId])]

/-- The `AgentManager._remove_from_location` (manager.py 370-373): guarded set
discard. -/
def removeFromByLocation (idx : List (String × List String))
    (agentId locationId : String) : List (String × List String) :=
  idx.map (fun p => if p.1 = locationId then (p.1, p.2.erase agentId) else p)

/-- The `LocationManager.leave` (locations.py 351-366).  The source body calls
`location.agent_leave`, an attribute `Location` does not define; reaching
the found-location branch would raise `AttributeError` in Python.  It is
modelled as the evidently intended `Location.leave`; under the swapped
`move_agent` arguments (see `moveAgent`) the lookup misses anyway unless an
agent id collides with a location id. -/
def locationManagerLeave (w : World) (agentId locationId : String) :
    World × Bool :=
  match getLocation w locationId with
  | none => (w, false)
  | some _ =>
    ({ w with locations := (w.locations.map
        (fun l => if l.id = locationId then l.leave agentId else l)) }, true)

/-- The `LocationManager.enter` (locations.py 335-349); same
`agent_enter`-does-not-exist caveat as `locationManagerLeave`, modelled as
the intended `Location.enter`. -/
def locationManagerEnter (w : World) (agentId locationId : String) :
    World × Bool :=
  match getLocation w locationId with
  | none => (w, false)
  | some _ =>
    ({ w with locations := (w.locations.map
        (fun l => if l.id = locationId then (l.enter agentId).1 else l)) },
      true)

/-- The `AgentManager.move_agent` (manager.py 375-428).  The agent-by-id lookup
is modelled by passing the registered agent itself.  Both failure returns
(unknown location, full location) happen before any mutation.  On success,
lines 407 and 410 call `location_manager.leave(old_location_id, agent_id)`
and `location_manager.enter(new_location_id, agent_id)` with the arguments
in the wrong positional order for the `(agent_id, location_id)` signatures,
which is reproduced here verbatim. -/
def moveAgent (w : World) (a : Agent) (newLocationId : String) :
    World × Agent × Bool :=
  match getLocation w newLocationId with
  | none => (w, a, false)
  | some location =>
    if location.isFull then (w, a, false)
    else
      let w1 :=
        match a.position.locationId with
        | some oldLocationId =>
          let wA := { w with byLocation :=
            removeFromByLocation w.byLocation a.id oldLocationId }
          (locationManagerLeave wA oldLocationId a.id).1
        | none => w
      let w2 := { w1 with byLocation :=
        (addToByLocation w1.byLocation a.id newLocationId) }
      let w3 := (locationManagerEnter w2 newLocationId a.id).1
      let a' := a.moveTo location.x location.y (some location.id)
        (some location.name)
      (w3, a', true)

/-- The `Decision` dataclass (decision.py 42-49) restricted to the fields
`execute_decision` reads. -/
structure DecisionRec where
  action : ActionType
  target : Option String
  thinking : String
  reason : String
deriving DecidableEq, Repr

/-- The `execute_decision` (decision.py 189-234) on a Move decision: the
unconditional `agent.current_action.thinking = decision.thinking`
assignment of line 210 followed by the `ActionType.MOVE` branch (lines
213-234).  The branches for the other action kinds are independent of the
claims and not modelled.  `freshId` is the uuid of the "前往..." memory
written on success. -/
def executeDecisionMove (rec : ℕ → ℚ) (now : ℕ) (freshId : String)
    (w : World) (a : Agent) (d : DecisionRec) : World × Agent × Bool :=
  let a0 := { a with currentAction :=
    { a.currentAction with thinking := some d.thinking } }
  match (if optStrTruthy d.target then getByName w (d.target.getD "")
         else none) with
  | some location =>
    let moved := moveAgent w a0 location.id
    if moved.2.2 then
      let a2 := (moved.2.1.setAction now .move (some location.id)
        (some location.name) 5 (some d.thinking))
      let a3 := a2.addMemory rec now freshId ("前往" ++ location.name)
        .event 2 []
      (moved.1, a3, true)
    else (moved.1, moved.2.1, false)
  | none => (w, a0, false)

/-- The Move-failure condition of `execute_decision` + `move_agent`: the
target name resolves to no location (including a falsy target), or the
location it resolves to is (by id) unknown or at capacity. -/
def moveBlocked (w : World) (d : DecisionRec) : Bool :=
  match (if optStrTruthy d.target then getByName w (d.target.getD "")
         else none) with
  | none => true
  | some location =>
    match getLocation w location.id with
    | none => true
    | some l2 => l2.isFull

/-! ### Memory-operation sequences and concrete fixtures -/

/-- One public mutation of a memory store: an `add` or a `remove`. -/
inductive MemOp
  | addOp (m : Memory)
  | removeOp (memoryId : String)

/-- Run a sequence of `add` / `remove` calls against a store. -/
def applyMemOps (rec : ℕ → ℚ) (now : ℕ) (g : MemoryManager)
    (ops : List MemOp) : MemoryManager :=
  ops.foldl
    (fun h op =>
      match op with
      | .addOp m => (h.add rec now m).1
      | .removeOp memoryId => (h.remove memoryId).1)
    g

/-- Total importance of the memories added by a sequence of operations. -/
def addedImportance : List MemOp → ℚ
  | [] => 0
  | .addOp m :: ops => m.importance + addedImportance ops
  | .removeOp _ :: ops => addedImportance ops

/-- Run a sequence of `add` calls against a store. -/
def addSeq (rec : ℕ → ℚ) (now : ℕ) (g : MemoryManager)
    (ms : List Memory) : MemoryManager :=
  ms.foldl (fun h m => (h.add rec now m).1) g

/-- Recency model used in concrete instances: the memories involved all
have age 0, where the float power of the source, `2.71828 ** (-0/24)`, is
exactly `1.0`. -/
def rec0 : ℕ → ℚ := fun _ => 1

/-- An importance-5 event memory with empty content (hence no keywords). -/
def memA : Memory := mkMemory "a1" .event "" 5 [] none none none 0

/-- Fifteen importance-5 memories with distinct ids. -/
def memList15 : List Memory :=
  (List.range 15).map (fun i => mkMemory (toString i) .event "" 5 [] none none none 0)

/-- A store that received exactly one `add` (so its accumulated importance
is 5). -/
def mgrAcc : MemoryManager := ((mkMemoryManager 200 20 3).add rec0 0 memA).1

/-- First retrieval fixture memory: importance 5, created at time 0. -/
def memR1 : Memory := mkMemory "m1" .event "" 5 [] none none none 0

/-- Second retrieval fixture memory. -/
def memR2 : Memory := mkMemory "m2" .event "" 5 [] none none none 0

/-- A store holding `memR1` then `memR2`, in insertion order. -/
def mgrR : MemoryManager :=
  (((mkMemoryManager 200 20 3).add rec0 0 memR1).1.add rec0 0 memR2).1

/-- Reflection oracle whose question call raises. -/
def oracleNoQ : ReflectionOracle := ⟨none, fun _ => none, fun _ => "rid"⟩

/-- Reflection oracle answering the question call with one question line
(and raising on every insight call). -/
def oracleQ : ReflectionOracle :=
  ⟨some "他为什么生气?", fun _ => none, fun _ => "rid"⟩

/-- A baseline idle agent with an empty memory store. -/
def agent0 : Agent :=
  ⟨"a1", "张三", mkMemoryManager 200 20 3, 100, ⟨0, 0, none, none⟩, .active,
    ⟨.idle, none, none, 0, 0, 0, none⟩, none, none⟩

/-- A one-block daily plan. -/
def planA : DailyPlan := ⟨0, [⟨"09:00", "12:00", "工作", "办公室"⟩], [], [], 0⟩

/-- The baseline agent carrying `planA`. -/
def agentPlan : Agent := { agent0 with dailyPlan := some planA }

/-- An interrupt decision with a reaction text. -/
def dInterrupt : ReactionDecision := ⟨true, .interrupt, some "去看看", "有情况"⟩

/-- A note decision with a reaction text. -/
def rdNote : ReactionDecision := ⟨true, .note, some "路边出现了新摊位", "值得注意"⟩

/-- A perception in which 李四 is waiting for a response. -/
def pAddressed : Perception := ⟨"", none, [], [], [], true, some "李四", []⟩

/-- An empty perception (at a known location). -/
def pEmptyPerc : Perception := ⟨"公园", some "L1", [], [], [], false, none, []⟩

/-- The baseline agent already thinking something. -/
def agentOldThink : Agent :=
  { agent0 with currentAction := { agent0.currentAction with thinking := some "旧想法" } }

/-- A world directory with no locations. -/
def worldEmpty : World := ⟨[], []⟩

/-- A Move decision towards a location name that resolves to nothing. -/
def dMove : DecisionRec := ⟨.move, some "不存在的地方", "新想法", ""⟩

/-! ### Stable-sort lemmas -/

theorem insertSorted_perm {α : Type} (le : α → α → Bool) (x : α) (l : List α) :
    (insertSorted le x l).Perm (x :: l) := by
  induction l with
  | nil => simp [insertSorted]
  | cons y ys ih =>
    simp only [insertSorted]
    by_cases h : le y x = true
    · simp only [if_pos h]
      exact ((ih.cons y).trans (List.Perm.swap x y ys))
    · simp only [if_neg h]
      exact List.Perm.refl _

theorem stableSort_perm {α : Type} (le : α → α → Bool) (l : List α) :
    (stableSort le l).Perm l := by
  suffices h : ∀ acc : List α,
      (l.foldl (fun acc x => insertSorted le x acc) acc).Perm (acc ++ l) by
    simpa [stableSort] using h []
  induction l with
  | nil => intro acc; simp
  | cons y ys ih =>
    intro acc
    simp only [List.foldl_cons]
    refine (ih (insertSorted le y acc)).trans ?_
    have h1 : (insertSorted le y acc ++ ys).Perm ((y :: acc) ++ ys) :=
      (insertSorted_perm le y acc).append_right ys
    refine h1.trans ?_
    simp only [List.cons_append]
    exact (List.perm_middle).symm

theorem mem_stableSort {α : Type} (le : α → α → Bool) (l : List α) (x : α) :
    x ∈ stableSort le l ↔ x ∈ l :=
  (stableSort_perm le l).mem_iff

theorem length_stableSort {α : Type} (le : α → α → Bool) (l : List α) :
    (stableSort le l).length = l.length :=
  (stableSort_perm le l).length_eq

/-! ### Helper lemmas about the memory store -/

theorem mem_dictInsert_self (l : List Memory) (m : Memory) :
    m ∈ dictInsert l m := by
  unfold dictInsert
  by_cases h : l.any (fun x => x.id = m.id) = true
  · rw [if_pos h]
    rcases List.any_eq_true.mp h with ⟨x, hx, hid⟩
    have hid' := of_decide_eq_true hid
    exact List.mem_map.mpr ⟨x, hx, by rw [if_pos hid']⟩
  · rw [if_neg h]
    exact List.mem_append_right l (List.mem_singleton.mpr rfl)

theorem length_dictInsert_le (l : List Memory) (m : Memory) :
    (dictInsert l m).length ≤ l.length + 1 := by
  unfold dictInsert
  by_cases h : l.any (fun x => x.id = m.id) = true
  · rw [if_pos h, List.length_map]; omega
  · rw [if_neg h, List.length_append]; simp

theorem remove_accumulated (g : MemoryManager) (memoryId : String) :
    ((g.remove memoryId).1).accumulatedImportance =
      g.accumulatedImportance := by
  unfold MemoryManager.remove
  cases g.memories.find? (fun m => m.id = memoryId) <;> rfl

theorem remove_maxMemories (g : MemoryManager) (memoryId : String) :
    ((g.remove memoryId).1).maxMemories = g.maxMemories := by
  unfold MemoryManager.remove
  cases g.memories.find? (fun m => m.id = memoryId) <;> rfl

theorem remove_length_le (g : MemoryManager) (memoryId : String) :
    ((g.remove memoryId).1).memories.length ≤ g.memories.length := by
  unfold MemoryManager.remove
  cases g.memories.find? (fun m => m.id = memoryId)
  · exact le_refl _
  · exact List.length_eraseP_le _

theorem remove_length_of_mem (g : MemoryManager) (x : Memory)
    (hx : x ∈ g.memories) :
    ((g.remove x.id).1).memories.length = g.memories.length - 1 := by
  have hfind : (g.memories.find? (fun m => m.id = x.id)).isSome = true :=
    List.find?_isSome.mpr ⟨x, hx, by simp⟩
  unfold MemoryManager.remove
  cases h : g.memories.find? (fun m => m.id = x.id) with
  | none => rw [h] at hfind; simp at hfind
  | some mem =>
    simp only
    exact List.length_eraseP_of_mem hx (by simp)

theorem foldlRemove_accumulated (ms : List Memory) (g : MemoryManager) :
    ((ms.foldl (fun h mem => (h.remove mem.id).1) g)).accumulatedImportance =
      g.accumulatedImportance := by
  induction ms generalizing g with
  | nil => rfl
  | cons x xs ih =>
    simp only [List.foldl_cons]
    rw [ih, remove_accumulated]

theorem foldlRemove_maxMemories (ms : List Memory) (g : MemoryManager) :
    ((ms.foldl (fun h mem => (h.remove mem.id).1) g)).maxMemories =
      g.maxMemories := by
  induction ms generalizing g with
  | nil => rfl
  | cons x xs ih =>
    simp only [List.foldl_cons]
    rw [ih, remove_maxMemories]

theorem foldlRemove_length_le (ms : List Memory) (g : MemoryManager) :
    ((ms.foldl (fun h mem => (h.remove mem.id).1) g)).memories.length ≤
      g.memories.length := by
  induction ms generalizing g with
  | nil => exact le_refl _
  | cons x xs ih =>
    simp only [List.foldl_cons]
    exact (ih _).trans (remove_length_le g x.id)

theorem forget_accumulated (rec : ℕ → ℚ) (now : ℕ) (g : MemoryManager) :
    (g.forgetLeastImportant rec now).accumulatedImportance =
      g.accumulatedImportance := by
  unfold MemoryManager.forgetLeastImportant
  by_cases h : g.memories.isEmpty = true
  · rw [if_pos h]
  · rw [if_neg h]
    exact foldlRemove_accumulated _ _

theorem forget_maxMemories (rec : ℕ → ℚ) (now : ℕ) (g : MemoryManager) :
    (g.forgetLeastImportant rec now).maxMemories = g.maxMemories := by
  unfold MemoryManager.forgetLeastImportant
  by_cases h : g.memories.isEmpty = true
  · rw [if_pos h]
  · rw [if_neg h]
    exact foldlRemove_maxMemories _ _

theorem foldlRemove_cons_length (x : Memory) (xs : List Memory)
    (g : MemoryManager) (hmem : x ∈ g.memories) :
    (((x :: xs).foldl (fun h mem => (h.remove mem.id).1) g)).memories.length
      + 1 ≤ g.memories.length := by
  simp only [List.foldl_cons]
  have h1 := remove_length_of_mem g x hmem
  have h2 := foldlRemove_length_le xs ((g.remove x.id).1)
  have h3 : 0 < g.memories.length := by
    apply List.length_pos.mpr
    intro hnil
    rw [hnil] at hmem
    simp at hmem
  omega

theorem forget_length_lt (rec : ℕ → ℚ) (now : ℕ) (g : MemoryManager)
    (hne : g.memories ≠ []) :
    (g.forgetLeastImportant rec now).memories.length + 1 ≤
      g.memories.length := by
  unfold MemoryManager.forgetLeastImportant
  rw [if_neg (by simpa [List.isEmpty_iff] using hne)]
  dsimp only
  set le := fun a b => decide (Memory.getRetrievalScore rec now a none ≤
    Memory.getRetrievalScore rec now b none) with hle
  have hperm := stableSort_perm le g.memories
  have hpos : 0 < (stableSort le g.memories).length := by
    rw [hperm.length_eq]
    exact List.length_pos.mpr hne
  obtain ⟨x, rest, hx⟩ : ∃ x rest, stableSort le g.memories = x :: rest := by
    cases hsl : stableSort le g.memories with
    | nil => rw [hsl] at hpos; simp at hpos
    | cons a t => exact ⟨a, t, rfl⟩
  set t := max 1 (g.memories.length / 10) with ht
  have h1t : 1 ≤ t := le_max_left _ _
  have h1 : t = (t - 1) + 1 := by omega
  rw [hx, h1, List.take_succ_cons]
  exact foldlRemove_cons_length x (rest.take (t - 1)) g
    (hperm.mem_iff.mp (by rw [hx]; simp))

theorem add_accumulated (rec : ℕ → ℚ) (now : ℕ) (g : MemoryManager)
    (m : Memory) :
    ((g.add rec now m).1).accumulatedImportance =
      g.accumulatedImportance + m.importance := by
  unfold MemoryManager.add
  by_cases h : g.maxMemories ≤ g.memories.length
  · simp only [if_pos h]
    rw [forget_accumulated]
  · simp only [if_neg h]

theorem add_maxMemories (rec : ℕ → ℚ) (now : ℕ) (g : MemoryManager)
    (m : Memory) :
    ((g.add rec now m).1).maxMemories = g.maxMemories := by
  unfold MemoryManager.add
  by_cases h : g.maxMemories ≤ g.memories.length
  · simp only [if_pos h]
    rw [forget_maxMemories]
  · simp only [if_neg h]

theorem mem_add (rec : ℕ → ℚ) (now : ℕ) (g : MemoryManager) (m : Memory) :
    m ∈ ((g.add rec now m).1).memories := by
  unfold MemoryManager.add
  by_cases h : g.maxMemories ≤ g.memories.length
  · simp only [if_pos h]
    exact mem_dictInsert_self _ m
  · simp only [if_neg h]
    exact mem_dictInsert_self _ m

theorem add_count_le (rec : ℕ → ℚ) (now : ℕ) (g : MemoryManager)
    (m : Memory) (hmax : 1 ≤ g.maxMemories)
    (hinv : g.memories.length ≤ g.maxMemories) :
    ((g.add rec now m).1).memories.length ≤ g.maxMemories := by
  unfold MemoryManager.add
  by_cases h : g.maxMemories ≤ g.memories.length
  · simp only [if_pos h]
    have hne : g.memories ≠ [] := by
      intro hnil
      rw [hnil] at h
      simp at h
      omega
    have hforget := forget_length_lt rec now g hne
    have hins := length_dictInsert_le
      ((g.forgetLeastImportant rec now).memories) m
    omega
  · simp only [if_neg h]
    have hins := length_dictInsert_le g.memories m
    omega

theorem addSeq_count_le (rec : ℕ → ℚ) (now : ℕ) (ms : List Memory)
    (g : MemoryManager) (hmax : 1 ≤ g.maxMemories)
    (hinv : g.memories.length ≤ g.maxMemories) :
    (addSeq rec now g ms).memories.length ≤ g.maxMemories := by
  induction ms generalizing g with
  | nil => exact hinv
  | cons x xs ih =>
    unfold addSeq
    simp only [List.foldl_cons]
    have hstep := add_count_le rec now g x hmax hinv
    have hm := add_maxMemories rec now g x
    have := ih ((g.add rec now x).1) (by omega) (by omega)
    unfold addSeq at this
    omega

/-! ### Claim theorems -/

/-- C8 — `DailyPlan.get_current_block` searches `current_tasks`, then
`hourly_chunks`, then `broad_strokes`, and returns the first block at any
granularity whose half-open `[start, end)` interval contains the `"HH:MM"`
rendering of the query time; `none` exactly when no block contains it.
That is the first match of the concatenation in that priority order, so a
time covered by both an hourly chunk and a broad stroke yields the hourly
chunk. -/
theorem claimC8 (plan : DailyPlan) (h m : ℕ) :
    plan.getCurrentBlock h m =
      (plan.currentTasks ++ plan.hourlyChunks ++ plan.broadStrokes).find?
        (fun b => blockContains b (fmtHM h m)) := by
  unfold DailyPlan.getCurrentBlock
  dsimp only
  rw [List.find?_append, List.find?_append]
  cases h1 : plan.currentTasks.find? (fun b => blockContains b (fmtHM h m)) <;>
    cases h2 : plan.hourlyChunks.find? (fun b => blockContains b (fmtHM h m)) <;>
      simp [h1, h2, Option.or]

/-- C9 — in `MemoryManager.add`, eviction runs (on the pre-insertion
store) before the new memory is inserted, so the added memory is present
immediately after every `add`, for every store, clock and recency model —
in particular even when its own retrieval score is the lowest. -/
theorem claimC9 (rec : ℕ → ℚ) (now : ℕ) (g : MemoryManager) (m : Memory) :
    m ∈ ((g.add rec now m).1).memories :=
  mem_add rec now g m

/-- C10 — `remove` (and hence eviction inside `add`) never changes
`accumulated_importance`: across any sequence of `add`/`remove` calls the
counter grows by exactly the sum of the importances of the added memories,
so it reflects every memory ever added since the last reset even after
those memories are gone. -/
theorem claimC10 (rec : ℕ → ℚ) (now : ℕ) (g : MemoryManager)
    (ops : List MemOp) :
    (applyMemOps rec now g ops).accumulatedImportance =
        g.accumulatedImportance + addedImportance ops ∧
      ∀ (g' : MemoryManager) (memoryId : String),
        ((g'.remove memoryId).1).accumulatedImportance =
          g'.accumulatedImportance := by
  refine ⟨?_, fun g' memoryId => remove_accumulated g' memoryId⟩
  induction ops generalizing g with
  | nil => simp [applyMemOps, addedImportance]
  | cons op ops ih =>
    cases op with
    | addOp m =>
      unfold applyMemOps
      simp only [List.foldl_cons]
      have := ih ((g.add rec now m).1)
      unfold applyMemOps at this
      rw [this, add_accumulated, addedImportance]
      ring
    | removeOp memoryId =>
      unfold applyMemOps
      simp only [List.foldl_cons]
      have := ih ((g.remove memoryId).1)
      unfold applyMemOps at this
      rw [this, remove_accumulated, addedImportance]

/-- Score of an age-0, importance-5, no-keyword memory for an empty query:
`5/10·0.4 + 1·0.3 + 0.5·0.3 = 13/20`. -/
theorem score5 (m : Memory) (h5 : m.importance = 5) (h0 : m.createdAt = 0) :
    m.getRetrievalScore rec0 0 (some (extractKeywords "")) = 13/20 := by
  have hq : extractKeywords "" = (∅ : Finset String) := rfl
  unfold Memory.getRetrievalScore Memory.getRecencyScore
  rw [hq, h5, h0]
  norm_num [rec0, min_def, max_def]

/-! ### Claim theorems (continued) -/

/-- C2 (amended) — a `run_reflection` that produces no question returns the
empty `ReflectionResult` and leaves the memory store (in particular
`accumulated_importance`) exactly unchanged; a `run_reflection` that
produces at least one question always ends by setting
`accumulated_importance` to 0 and stamping `last_reflection_time`.  (The
"only operation that sets it to 0" part of the claim fails:
`MemoryManager.clear` also zeroes the counter, see the counterexample.) -/
theorem runReflection_questions_eq (rec : ℕ → ℚ) (now : ℕ)
    (oracle : ReflectionOracle) (g : MemoryManager) :
    (runReflection rec now oracle g).2.questions =
      generateQuestions oracle g := by
  unfold runReflection
  by_cases hq : (generateQuestions oracle g).isEmpty = true
  · rw [if_pos hq]
    exact (List.isEmpty_iff.mp hq).symm
  · rw [if_neg hq]

theorem claimC2 (rec : ℕ → ℚ) (now : ℕ) (oracle : ReflectionOracle)
    (g : MemoryManager) :
    ((runReflection rec now oracle g).2.questions = [] →
      runReflection rec now oracle g = (g, ⟨[], [], 0⟩)) ∧
    ((runReflection rec now oracle g).2.questions ≠ [] →
      (runReflection rec now oracle g).1.accumulatedImportance = 0 ∧
        (runReflection rec now oracle g).1.lastReflectionTime = some now) := by
  constructor
  · intro h
    have hq : generateQuestions oracle g = [] :=
      (runReflection_questions_eq rec now oracle g) ▸ h
    unfold runReflection
    rw [hq]
    rfl
  · intro hne
    have hq : ¬(generateQuestions oracle g).isEmpty = true := by
      rw [List.isEmpty_iff]
      exact fun hc =>
        hne ((runReflection_questions_eq rec now oracle g).trans hc)
    unfold runReflection
    rw [if_neg hq]
    exact ⟨rfl, rfl⟩

/-- C2 counterexample — `MemoryManager.clear` is another operation that
sets `accumulated_importance` to 0: on a store whose counter is 5 (≠ 0),
`clear` leaves the counter at exactly 0, so a successful `run_reflection`
is not the only operation doing so. -/
theorem claimC2_counterexample :
    mgrAcc.accumulatedImportance ≠ 0 ∧
      (MemoryManager.clear mgrAcc).accumulatedImportance = 0 := by
  constructor
  · show (0 : ℚ) + 5 ≠ 0
    norm_num
  · rfl

/-- C2 witness — the theorem applied to two concrete runs: one whose
question stage produces nothing (empty store) and one that produces a
question (nonempty store, question-bearing response). -/
theorem claimC2_witness :
    runReflection rec0 7 oracleNoQ (mkMemoryManager 200 20 3) =
        (mkMemoryManager 200 20 3, ⟨[], [], 0⟩) ∧
      (runReflection rec0 7 oracleQ mgrAcc).1.accumulatedImportance = 0 :=
  ⟨(claimC2 rec0 7 oracleNoQ (mkMemoryManager 200 20 3)).1 rfl,
    ((claimC2 rec0 7 oracleQ mgrAcc).2 (by decide)).1⟩

/-- C3 (amended) — for every memory store of capacity at least 1, any
sequence of `add` calls starting from a fresh store keeps
`count() ≤ capacity` (in particular after each `add`, since every prefix
of the sequence is such a sequence), and `add` is total.  Capacity-0
stores violate the bound, see the counterexample. -/
theorem claimC3 (rec : ℕ → ℚ) (now : ℕ) (maxMemories shortTermLimit : ℕ)
    (importanceThreshold : ℚ) (hmax : 1 ≤ maxMemories) (ms : List Memory) :
    (addSeq rec now (mkMemoryManager maxMemories shortTermLimit
      importanceThreshold) ms).count ≤ maxMemories := by
  unfold MemoryManager.count
  exact addSeq_count_le rec now ms _ hmax (by simp [mkMemoryManager])

/-- C3 counterexample — a store constructed with `max_memories = 0` holds
1 > 0 memories after a single `add` (the eviction pass runs on the empty
store and removes nothing), refuting the bound for *every* store. -/
theorem claimC3_counterexample :
    (mkMemoryManager 0 20 3).maxMemories = 0 ∧
      (((mkMemoryManager 0 20 3).add rec0 0 memA).1).count = 1 := by
  constructor
  · rfl
  · rfl

/-- C3 witness — the theorem at capacity 10 with 15 adds of distinct
memories: the store ends with at most 10 memories. -/
theorem claimC3_witness :
    1 ≤ 10 ∧
      (addSeq rec0 0 (mkMemoryManager 10 20 3) memList15).count ≤ 10 :=
  ⟨by decide, claimC3 rec0 0 10 20 3 (by decide) memList15⟩

/-- C6 — `should_react` is deterministic on its two short-circuit paths
and performs no inference call there (the second component of the result
records whether the LLM was consulted): an empty perception yields the
Continue decision with `should_react = false`, and a perception with
`being_addressed` yields the Interrupt decision with `should_react = true`
and a reaction naming the addresser, for every oracle. -/
theorem claimC6 (oracle : Option (Option ReactionJson)) (p : Perception) :
    (p.isEmpty = true →
      shouldReactFn oracle p =
        (⟨false, .cont, none, "没有需要反应的事情"⟩, false)) ∧
    (p.beingAddressed = true →
      shouldReactFn oracle p =
        (⟨true, .interrupt, some ("回应" ++ pyOptStr p.addressedBy),
          pyOptStr p.addressedBy ++ "在等待回应"⟩, false)) := by
  constructor
  · intro h
    unfold shouldReactFn
    rw [if_pos h]
  · intro hb
    have hne : p.isEmpty = false := by
      unfold Perception.isEmpty
      rw [hb]
      simp
    unfold shouldReactFn
    rw [if_neg (by simp [hne]), if_pos hb]

/-- C6 witness — the theorem at an empty perception and at a perception
addressed by 李四 (oracle irrelevant): Interrupt with reaction
`回应李四`, with no inference call on either path. -/
theorem claimC6_witness :
    shouldReactFn none pEmptyPerc =
        (⟨false, .cont, none, "没有需要反应的事情"⟩, false) ∧
      shouldReactFn none pAddressed =
        (⟨true, .interrupt, some "回应李四", "李四在等待回应"⟩, false) :=
  ⟨(claimC6 none pEmptyPerc).1 rfl, (claimC6 none pAddressed).2 rfl⟩

/-- Failing `replan_from_now` (raised call or unparsable output) returns
the empty list, for every agent, time and context. -/
theorem replanFail (ro : Option (Option (List BlockJson)))
    (hro : ro = none ∨ ro = some none) (a : Agent) (h m : ℕ) (what : String) :
    replanFromNow ro a h m what = [] := by
  unfold replanFromNow
  cases a.dailyPlan with
  | none => rfl
  | some _ =>
    rcases hro with h' | h' <;> rw [h']

/-- The daily plan of an agent is untouched by `add_memory`. -/
theorem addMemory_dailyPlan (rec : ℕ → ℚ) (now : ℕ) (fid : String)
    (a : Agent) (content : String) (mtype : MemoryType) (imp : ℚ)
    (ra : List String) :
    (a.addMemory rec now fid content mtype imp ra).dailyPlan = a.dailyPlan :=
  rfl

/-- C7 — when the inference call behind `replan_from_now` raises or its
output has no extractable `new_plan`, `replan_from_now` returns `[]` (it
is total), and `execute_reaction` — for every decision, in particular the
Interrupt path that calls it — leaves the existing agent `daily_plan`
(hence its `broad_strokes`) unchanged. -/
theorem claimC7 (ro : Option (Option (List BlockJson)))
    (hro : ro = none ∨ ro = some none) (a : Agent) (h m : ℕ) (what : String)
    (rec : ℕ → ℚ) (now : ℕ) (f1 f2 : String) (nH nM : ℕ)
    (d : ReactionDecision) :
    replanFromNow ro a h m what = [] ∧
      (executeReaction rec now f1 f2 ro nH nM a d).1.dailyPlan =
        a.dailyPlan := by
  refine ⟨replanFail ro hro a h m what, ?_⟩
  unfold executeReaction
  cases hsr : d.shouldReact with
  | false => rfl
  | true =>
    simp only [Bool.not_true, Bool.false_eq_true, if_false]
    by_cases hnote : d.reactionType = .note
    · rw [if_pos hnote]
      by_cases ht : optStrTruthy d.reaction = true
      · rw [if_pos ht]
        rfl
      · rw [if_neg ht]
    · rw [if_neg hnote]
      by_cases hint : d.reactionType = .interrupt
      · rw [if_pos hint]
        dsimp only
        rw [replanFail ro hro _ nH nM _]
        simp only [List.isEmpty_nil, Bool.not_true, Bool.false_eq_true,
          if_false]
        split <;> split <;> rfl
      · rw [if_neg hint]

/-- C7 witness — the theorem at a raised inference call, a planned agent
and a concrete interrupt decision. -/
theorem claimC7_witness :
    replanFromNow none agentPlan 12 30 "有情况" = [] ∧
      (executeReaction rec0 0 "f1" "f2" none 12 30 agentPlan
        dInterrupt).1.dailyPlan = agentPlan.dailyPlan :=
  claimC7 none (Or.inl rfl) agentPlan 12 30 "有情况" rec0 0 "f1" "f2" 12 30
    dInterrupt

/-- C4 (amended) — when the per-agent pipeline acts on a Note reaction
decision (`should_react` true), it never short-circuits the tick and never
touches the current action, position, state or plan; when the decision
carries a truthy reaction text, that text (not the perception) is written
as an **Event**-kind memory with importance **3** (the Observation /
importance-4 write lives only in `execute_reaction`, which the pipeline
invokes only for Interrupt); with no truthy reaction text nothing at all
happens. -/
theorem claimC4 (rec : ℕ → ℚ) (now : ℕ) (f1 f2 f3 : String)
    (ro : Option (Option (List BlockJson))) (nH nM : ℕ) (a : Agent)
    (rd : ReactionDecision) (hsr : rd.shouldReact = true)
    (hnote : rd.reactionType = .note) :
    (processReactionStep rec now f1 f2 f3 ro nH nM a rd).2 = false ∧
      (processReactionStep rec now f1 f2 f3 ro nH nM a rd).1.currentAction =
        a.currentAction ∧
      (processReactionStep rec now f1 f2 f3 ro nH nM a rd).1.position =
        a.position ∧
      (processReactionStep rec now f1 f2 f3 ro nH nM a rd).1.state =
        a.state ∧
      (processReactionStep rec now f1 f2 f3 ro nH nM a rd).1.dailyPlan =
        a.dailyPlan ∧
      (optStrTruthy rd.reaction = false →
        (processReactionStep rec now f1 f2 f3 ro nH nM a rd).1 = a) ∧
      (optStrTruthy rd.reaction = true →
        ∃ mem ∈ (processReactionStep rec now f1 f2 f3 ro nH nM
            a rd).1.memory.memories,
          mem.content = rd.reaction.getD "" ∧ mem.mtype = .event ∧
            mem.importance = 3) := by
  have hint : ¬ rd.reactionType = .interrupt := by
    rw [hnote]; intro hc; cases hc
  have hstep : processReactionStep rec now f1 f2 f3 ro nH nM a rd =
      (if optStrTruthy rd.reaction = true then
        a.addMemory rec now f3 (rd.reaction.getD "") .event 3 []
      else a, false) := by
    unfold processReactionStep
    rw [if_pos hsr, if_neg hint, if_pos hnote]
  rw [hstep]
  by_cases ht : optStrTruthy rd.reaction = true
  · rw [if_pos ht]
    refine ⟨rfl, rfl, rfl, rfl, rfl, fun hf => absurd ht (by rw [hf]; simp),
      fun _ => ?_⟩
    refine ⟨mkMemory f3 .event (rd.reaction.getD "") 3 []
      a.position.locationName none none now, ?_, rfl, rfl, rfl⟩
    exact mem_add rec now a.memory _
  · rw [if_neg ht]
    exact ⟨rfl, rfl, rfl, rfl, rfl, fun _ => rfl,
      fun hc => absurd hc ht⟩

/-- C4 counterexample — on a concrete Note decision the pipeline writes
exactly one memory, of kind Event with importance 3; since
`Event ≠ Observation` and `3 ≠ 4`, the perceived content is *not* written
as an Observation memory of importance 4 as claimed. -/
theorem claimC4_counterexample :
    ((processReactionStep rec0 0 "f1" "f2" "f3" none 12 0 agent0
        rdNote).1.memory.memories.map (fun mem => (mem.mtype, mem.importance))
      = [(MemoryType.event, 3)]) ∧
      MemoryType.event ≠ MemoryType.observation ∧ (3 : ℚ) ≠ 4 := by
  refine ⟨?_, by decide, by decide⟩
  rfl

/-- C4 witness — the theorem at a concrete Note decision: no
short-circuit, current action untouched, and the reaction text recorded as
an Event memory of importance 3. -/
theorem claimC4_witness :
    (processReactionStep rec0 0 "f1" "f2" "f3" none 12 0 agent0 rdNote).2 =
        false ∧
      (processReactionStep rec0 0 "f1" "f2" "f3" none 12 0 agent0
        rdNote).1.currentAction = agent0.currentAction ∧
      ∃ mem ∈ (processReactionStep rec0 0 "f1" "f2" "f3" none 12 0 agent0
          rdNote).1.memory.memories,
        mem.content = rdNote.reaction.getD "" ∧ mem.mtype = .event ∧
          mem.importance = 3 := by
  have h := claimC4 rec0 0 "f1" "f2" "f3" none 12 0 agent0 rdNote rfl rfl
  exact ⟨h.1, h.2.1, h.2.2.2.2.2.2 (by decide)⟩

/-- C5 (amended) — when `execute_decision` handles a Move decision whose
target resolves to no location or to a location at capacity, it returns
`False` and leaves the world and the whole agent state — position, state,
memory, plan, and every `current_action` field *except* `thinking` —
unchanged; however line 210 has already overwritten
`current_action.thinking` with the thinking of the decision before the lookup,
so the agent is not left entirely untouched. -/
theorem claimC5 (rec : ℕ → ℚ) (now : ℕ) (fid : String) (w : World)
    (a : Agent) (d : DecisionRec) (_hact : d.action = .move)
    (hblock : moveBlocked w d = true) :
    executeDecisionMove rec now fid w a d =
      (w, { a with currentAction :=
        { a.currentAction with thinking := some d.thinking } }, false) := by
  unfold moveBlocked at hblock
  unfold executeDecisionMove
  cases hl : (if optStrTruthy d.target then getByName w (d.target.getD "")
      else none) with
  | none => rfl
  | some location =>
    rw [hl] at hblock
    dsimp only at hblock
    dsimp only
    unfold moveAgent
    cases hg : getLocation w location.id with
    | none => rfl
    | some l2 =>
      rw [hg] at hblock
      dsimp only at hblock
      dsimp only
      rw [if_pos hblock]
      rfl

/-- C5 counterexample — with a decision whose thinking differs from that
of the agent, a failed Move returns `False` but `current_action.thinking` has
changed, so not every field of the agent state is the same as before. -/
theorem claimC5_counterexample :
    (executeDecisionMove rec0 0 "f1" worldEmpty agentOldThink dMove).2.2 =
        false ∧
      agentOldThink.currentAction.thinking = some "旧想法" ∧
      (executeDecisionMove rec0 0 "f1" worldEmpty agentOldThink
          dMove).2.1.currentAction.thinking = some "新想法" ∧
      ¬(executeDecisionMove rec0 0 "f1" worldEmpty agentOldThink
          dMove).2.1.currentAction.thinking =
        agentOldThink.currentAction.thinking := by
  refine ⟨rfl, rfl, rfl, by decide⟩

/-- C5 witness — the theorem at a concrete unresolvable Move target: the
call returns `False`, the world is unchanged, and the agent differs from
its old self only in `current_action.thinking`. -/
theorem claimC5_witness :
    executeDecisionMove rec0 0 "f1" worldEmpty agentOldThink dMove =
      (worldEmpty, { agentOldThink with currentAction :=
        { agentOldThink.currentAction with thinking := some "新想法" } },
        false) :=
  claimC5 rec0 0 "f1" worldEmpty agentOldThink dMove rfl (by decide)

/-- C1 (amended) — in `retrieve_relevant`, the `access_count` /
`last_accessed` update of a memory happens for **every** memory whose score reaches
`min_score`, whether or not it survives the top-`limit` cut: after the
call, every stored memory that passed the threshold appears in its
accessed form and every one that did not is untouched; the returned list
consists only of accessed threshold-passers and has length at most
`limit`. -/
theorem claimC1 (rec : ℕ → ℚ) (now : ℕ) (g : MemoryManager)
    (query : String) (limit : ℕ) (minScore : ℚ) :
    (∀ mem ∈ g.memories,
      (minScore ≤ mem.getRetrievalScore rec now (some (extractKeywords query)) →
        mem.access now ∈
          (g.retrieveRelevant rec now query limit minScore).1.memories) ∧
      (¬minScore ≤ mem.getRetrievalScore rec now (some (extractKeywords query)) →
        mem ∈ (g.retrieveRelevant rec now query limit minScore).1.memories)) ∧
    (∀ p ∈ (g.retrieveRelevant rec now query limit minScore).2,
      ∃ mem ∈ g.memories,
        minScore ≤ mem.getRetrievalScore rec now (some (extractKeywords query)) ∧
        p = (mem.access now,
          mem.getRetrievalScore rec now (some (extractKeywords query)))) ∧
    (g.retrieveRelevant rec now query limit minScore).2.length ≤ limit := by
  unfold MemoryManager.retrieveRelevant
  dsimp only
  refine ⟨?_, ?_, ?_⟩
  · intro mem hmem
    constructor
    · intro hsc
      have := List.mem_map_of_mem
        (fun m => if minScore ≤ m.getRetrievalScore rec now
          (some (extractKeywords query)) then m.access now else m) hmem
      dsimp only at this
      rw [if_pos hsc] at this
      exact this
    · intro hsc
      have := List.mem_map_of_mem
        (fun m => if minScore ≤ m.getRetrievalScore rec now
          (some (extractKeywords query)) then m.access now else m) hmem
      dsimp only at this
      rw [if_neg hsc] at this
      exact this
  · intro p hp
    have hp1 := List.mem_of_mem_take hp
    have hp2 := (mem_stableSort _ _ p).mp hp1
    rcases List.mem_map.mp hp2 with ⟨mem, hmemf, heq⟩
    rcases List.mem_filter.mp hmemf with ⟨hmem, hpass⟩
    exact ⟨mem, hmem, of_decide_eq_true hpass, heq.symm⟩
  · exact List.length_take_le _ _

/-- Both retrieval fixture memories are in the store, in insertion
order. -/
theorem mgrR_memories : mgrR.memories = [memR1, memR2] := rfl

/-- C1 counterexample — on a two-memory store (both scoring 13/20 ≥ 0.1)
with `limit = 1`, only `m1` is returned, yet the copy of `m2` left in the
store has `access_count = 1` (it was 0 before the call): a memory that
passes `min_score` but falls outside the top `limit` is *not* left
unchanged, refuting the claimed "if and only if". -/
theorem claimC1_counterexample :
    ((mgrR.retrieveRelevant rec0 0 "" 1 (1/10)).2.map (fun p => p.1.id) =
        ["m1"]) ∧
      memR2.accessCount = 0 ∧
      (∃ mem ∈ (mgrR.retrieveRelevant rec0 0 "" 1 (1/10)).1.memories,
        mem.id = "m2" ∧ mem.accessCount = 1) := by
  have hs1 : Memory.getRetrievalScore rec0 0 memR1
      (some (extractKeywords "")) = 13/20 := score5 memR1 rfl rfl
  have hs2 : Memory.getRetrievalScore rec0 0 memR2
      (some (extractKeywords "")) = 13/20 := score5 memR2 rfl rfl
  have hpass : (1 : ℚ)/10 ≤ 13/20 := by norm_num
  have hout : mgrR.retrieveRelevant rec0 0 "" 1 (1/10) =
      ({ mgrR with memories := [memR1.access 0, memR2.access 0] },
        [(memR1.access 0, 13/20)]) := by
    unfold MemoryManager.retrieveRelevant
    dsimp only
    rw [mgrR_memories]
    simp only [List.map_cons, List.map_nil, List.filter_cons,
      List.filter_nil, hs1, hs2, decide_eq_true_eq, if_pos hpass]
    simp only [stableSort, insertSorted, List.foldl_cons, List.foldl_nil,
      decide_eq_true_eq]
    rw [if_pos (le_refl (13/20 : ℚ))]
    rfl
  rw [hout]
  refine ⟨rfl, rfl, memR2.access 0, by simp, rfl, rfl⟩

/-- C1 witness — the theorem at the two-memory store: the threshold-passer
`m1` appears accessed in the post-call store, and the returned list length
respects the limit. -/
theorem claimC1_witness :
    memR1.access 0 ∈ (mgrR.retrieveRelevant rec0 0 "" 1 (1/10)).1.memories ∧
      (mgrR.retrieveRelevant rec0 0 "" 1 (1/10)).2.length ≤ 1 := by
  have h := claimC1 rec0 0 mgrR "" 1 (1/10)
  refine ⟨(h.1 memR1 (by rw [mgrR_memories]; simp)).1 ?_, h.2.2⟩
  rw [score5 memR1 rfl rfl]
  norm_num

end AISociety
